import Mathlib

/-!
Verification of the carbon-recycling-platform ingestion and query pipeline.

This file gives a shallow embedding of the two Python source files
`scripts/parse_conversion_factors.py` (the Factor Extractor) and
`src/api/conversion_factors.py` (the Factor Query Service), and proves the
specified properties of the data model, the tag-derivation algorithm, the
metadata aggregation, and the query operations.

Modelling conventions:
* A raw spreadsheet cell is `Option String` (`none` models a pandas NaN /
  missing cell); the numeric conversion-factor column is `Option ℚ`
  (finite floating-point values are modelled as rationals).
* Python string operations (`lower`, `strip`, `split`, single-character
  `replace`, substring `in`) are re-implemented structurally on the
  character list of a `String`, so that every definition evaluates by
  kernel reduction.
* Python exceptions are modelled with `Except`; the HTTP 404 of the
  lookup endpoint is `Except.error 404`.
* A Python `dict` used as an insertion-ordered counter is modelled as an
  association list `List (String × Nat)`.
-/

namespace CarbonPlatform

/-! ## Python-style string primitives -/

/-- Python `str.lower()` restricted to ASCII, as used on the source data. -/
def lowerStr (s : String) : String :=
  String.mk (s.data.map Char.toLower)

/-- Drop leading and trailing whitespace from a character list. -/
def trimChars (l : List Char) : List Char :=
  ((l.dropWhile Char.isWhitespace).reverse.dropWhile Char.isWhitespace).reverse

/-- Python `str.strip()`. -/
def trimStr (s : String) : String :=
  String.mk (trimChars s.data)

/-- Python single-character `str.replace(c, r)`. -/
def replaceChar (c r : Char) (s : String) : String :=
  String.mk (s.data.map (fun a => if a = c then r else a))

/-- Chunks of a character list delimited by whitespace characters
(empty chunks appear between consecutive delimiters). -/
def splitWsChunks : List Char → List (List Char)
  | [] => [[]]
  | c :: rest =>
    let r := splitWsChunks rest
    if c.isWhitespace then [] :: r
    else
      match r with
      | [] => [[c]]
      | t :: ts => (c :: t) :: ts

/-- Python `str.split()` with no argument: maximal runs of
non-whitespace characters, never producing empty tokens. -/
def splitWs (s : String) : List String :=
  ((splitWsChunks s.data).map String.mk).filter (fun t => !t.data.isEmpty)

/-- Does `needle` occur at the start of `hay`? -/
def startsWithList : List Char → List Char → Bool
  | [], _ => true
  | _ :: _, [] => false
  | a :: as, b :: bs => a == b && startsWithList as bs

/-- Does `needle` occur contiguously inside `hay`? -/
def containsList (needle : List Char) : List Char → Bool
  | [] => needle.isEmpty
  | c :: rest => startsWithList needle (c :: rest) || containsList needle rest

/-- Python `needle in hay` on strings (contiguous substring test). -/
def pyIn (needle hay : String) : Bool :=
  containsList needle.data hay.data

/-- Python truthiness of a string: non-empty. -/
def pyTruthy (s : String) : Bool :=
  !s.data.isEmpty

/-! ## Data model

`RawRow` is one row of the source sheet after `pd.read_excel` (column
names as assigned in `parse_excel`).  `Factor` is the structured record
built by `_create_factor_record`, with the nested `category` and `units`
dictionaries flattened into fields. -/

structure RawRow where
  ID : Option String
  Scope : Option String
  Level1 : Option String
  Level2 : Option String
  Level3 : Option String
  Level4 : Option String
  Column_Text : Option String
  UOM : Option String
  GHG_Unit : Option String
  Conversion_Factor_2025 : Option ℚ
deriving DecidableEq

structure Factor where
  id : String
  scope : Option String
  level1 : Option String
  level2 : Option String
  level3 : Option String
  level4 : Option String
  activity_unit : Option String
  emission_unit : Option String
  conversion_factor : ℚ
  column_text : Option String
  year : Nat
  tags : List String
deriving DecidableEq

/-! ## Factor Extractor (`parse_conversion_factors.py`) -/

/-- Tag tokens contributed by one category level (`_generate_tags`,
category loop): skipped when the value is absent, empty, or the literal
string `"nan"` after lowercasing; otherwise `(`, `)`, `-` are replaced
by spaces, the value is lowercased and split on whitespace. -/
def levelTags (level : Option String) : List String :=
  match level with
  | none => []
  | some s =>
    if s = "" ∨ lowerStr s = "nan" then []
    else splitWs (replaceChar '-' ' ' (replaceChar ')' ' ' (replaceChar '(' ' ' (lowerStr s))))

/-- The raw tag list of `_generate_tags` before cleaning: scope tag,
category-level tokens in level1..level4 order, then the activity unit. -/
def rawTagList (f : Factor) : List String :=
  (match f.scope with
   | some s => if s = "" then [] else [replaceChar ' ' '_' (lowerStr s)]
   | none => []) ++
  levelTags f.level1 ++ levelTags f.level2 ++ levelTags f.level3 ++ levelTags f.level4 ++
  (match f.activity_unit with
   | some u => if u = "" then [] else [lowerStr u]
   | none => [])

/-- The cleaning comprehension of `_generate_tags`: strip each tag and
keep it only when non-empty and of length > 1. -/
def cleanedTagList (f : Factor) : List String :=
  ((rawTagList f).map trimStr).filter (fun t => pyTruthy t && decide (1 < t.length))

/-- `_generate_tags`, parameterized by the list-of-set conversion
`dedup` used for `list(set(...))`: Python guarantees only that the
result is duplicate-free and has the same elements, not its order. -/
def _generate_tagsD (dedup : List String → List String) (f : Factor) : List String :=
  dedup (cleanedTagList f)

/-- `_generate_tags` with a fixed (first-occurrence) ordering of the
final `list(set(...))` conversion. -/
def _generate_tags (f : Factor) : List String :=
  _generate_tagsD List.dedup f

/-- The `factor` dictionary built by `_create_factor_record` before the
`tags` key is added: every textual field stripped, absent cells mapped
to `None`, the year fixed to 2025. -/
def baseRecord (row : RawRow) (i : String) (cf : ℚ) : Factor :=
  { id := trimStr i
    scope := row.Scope.map trimStr
    level1 := row.Level1.map trimStr
    level2 := row.Level2.map trimStr
    level3 := row.Level3.map trimStr
    level4 := row.Level4.map trimStr
    activity_unit := row.UOM.map trimStr
    emission_unit := row.GHG_Unit.map trimStr
    conversion_factor := cf
    column_text := row.Column_Text.map trimStr
    year := 2025
    tags := [] }

/-- `_create_factor_record`, parameterized by the `dedup` order used in
tag generation: `none` when the row's identifier or conversion-factor
value is missing, otherwise the structured record. -/
def _create_factor_recordD (dedup : List String → List String) (row : RawRow) : Option Factor :=
  match row.ID, row.Conversion_Factor_2025 with
  | some i, some cf =>
    some { baseRecord row i cf with tags := _generate_tagsD dedup (baseRecord row i cf) }
  | _, _ => none

/-- `_create_factor_record` with the fixed tag ordering. -/
def _create_factor_record (row : RawRow) : Option Factor :=
  _create_factor_recordD List.dedup row

/-- `_process_dataframe` restricted to its record-building effect: one
record per accepted row, source order preserved (the `dropna` in
`parse_excel` and the in-function guard reject the same rows). -/
def extractFactorsD (dedup : List String → List String) (rows : List RawRow) : List Factor :=
  rows.filterMap (_create_factor_recordD dedup)

/-- The extracted `conversion_factors` sequence with the fixed tag
ordering. -/
def extractFactors (rows : List RawRow) : List Factor :=
  rows.filterMap _create_factor_record

/-- One step of the Python counter idiom
`d[k] = d.get(k, 0) + 1` on an insertion-ordered association list. -/
def bumpCount : List (String × Nat) → String → List (String × Nat)
  | [], k => [(k, 1)]
  | (a, n) :: rest, k =>
    if a = k then (a, n + 1) :: rest else (a, n) :: bumpCount rest k

/-- One iteration of the counting loop of `_calculate_metadata`:
records whose key is absent or empty (Python falsy) are not counted. -/
def tallyStep (key : Factor → Option String) (acc : List (String × Nat)) (f : Factor) :
    List (String × Nat) :=
  match key f with
  | some s => if s = "" then acc else bumpCount acc s
  | none => acc

/-- The counting loop of `_calculate_metadata` for one key function. -/
def tallyBy (key : Factor → Option String) (factors : List Factor) : List (String × Nat) :=
  factors.foldl (tallyStep key) []

/-- The `scopes` metadata mapping of `_calculate_metadata`. -/
def scopesMeta (factors : List Factor) : List (String × Nat) :=
  tallyBy Factor.scope factors

/-- The `categories` metadata mapping of `_calculate_metadata`:
level1 counts sorted descending by count (Python `sorted` with
`reverse=True` is a stable descending sort). -/
def categoriesMeta (factors : List Factor) : List (String × Nat) :=
  (tallyBy Factor.level1 factors).mergeSort (fun a b => decide (b.2 ≤ a.2))

/-! ## Factor Query Service (`api/conversion_factors.py`) -/

/-- The body of a `/search` request (`SearchRequest` pydantic model);
every criterion is optional. -/
structure SearchRequest where
  scope : Option String
  category_level1 : Option String
  category_level2 : Option String
  category_level3 : Option String
  activity_unit : Option String
  emission_unit : Option String
  search_term : Option String
  min_factor : Option ℚ
  max_factor : Option ℚ
deriving DecidableEq

/-- One substring criterion of `search_factors`: the record's field must
be present and truthy, and contain the lowercased criterion. -/
def substrMatch (crit : String) (fieldVal : Option String) : Bool :=
  match fieldVal with
  | some v => pyTruthy v && pyIn (lowerStr crit) (lowerStr v)
  | none => false

/-- The populated category values of a record, as iterated by the
free-text search (`for v in f.get('category', {}).values() if v`). -/
def catValues (f : Factor) : List String :=
  ([f.level1, f.level2, f.level3, f.level4].filterMap id).filter pyTruthy

/-- `search_factors`: the chain of optional conjunctive filters.  Each
string criterion participates only when Python-truthy (present and
non-empty); the numeric bounds participate whenever present. -/
def search_factors (factors : List Factor) (p : SearchRequest) : List Factor :=
  let fs := factors
  let fs := match p.scope with
    | some c => if c = "" then fs else fs.filter (fun f => substrMatch c f.scope)
    | none => fs
  let fs := match p.category_level1 with
    | some c => if c = "" then fs else fs.filter (fun f => substrMatch c f.level1)
    | none => fs
  let fs := match p.category_level2 with
    | some c => if c = "" then fs else fs.filter (fun f => substrMatch c f.level2)
    | none => fs
  let fs := match p.category_level3 with
    | some c => if c = "" then fs else fs.filter (fun f => substrMatch c f.level3)
    | none => fs
  let fs := match p.activity_unit with
    | some c => if c = "" then fs else fs.filter (fun f => substrMatch c f.activity_unit)
    | none => fs
  let fs := match p.emission_unit with
    | some c => if c = "" then fs else fs.filter (fun f => substrMatch c f.emission_unit)
    | none => fs
  let fs := match p.search_term with
    | some c =>
      if c = "" then fs
      else fs.filter (fun f =>
        f.tags.any (fun t => pyIn (lowerStr c) (lowerStr t)) ||
        (catValues f).any (fun v => pyIn (lowerStr c) (lowerStr v)))
    | none => fs
  let fs := match p.min_factor with
    | some m => fs.filter (fun f => decide (m ≤ f.conversion_factor))
    | none => fs
  let fs := match p.max_factor with
    | some m => fs.filter (fun f => decide (f.conversion_factor ≤ m))
    | none => fs
  fs

/-- The `/factors/{factor_id}` endpoint: first record whose `id` equals
the requested one, else the 404 not-found condition. -/
def get_factor_by_id (factors : List Factor) (factor_id : String) : Except Nat Factor :=
  match factors.find? (fun f => f.id == factor_id) with
  | some f => Except.ok f
  | none => Except.error 404

/-- The electricity condition of `quick_lookup`: some tag is literally
`"electricity"`, `"uk"` or `"grid"`, and the scope is exactly
`"Scope 2"` or `"Scope 1"`. -/
def elecPred (f : Factor) : Bool :=
  f.tags.any (fun t => t == "electricity" || t == "uk" || t == "grid") &&
  (f.scope == some "Scope 2" || f.scope == some "Scope 1")

/-- The fuel condition of `quick_lookup`: some tag contains the
requested fuel type (case-insensitively) and `level1 == "Fuels"`. -/
def fuelPred (fuel_type : String) (f : Factor) : Bool :=
  f.tags.any (fun t => pyIn (lowerStr fuel_type) (lowerStr t)) &&
  f.level1 == some "Fuels"

/-- The tag half of the transport condition of `quick_lookup`. -/
def transportTagMatch (transport_mode : String) (f : Factor) : Bool :=
  f.tags.any (fun t => pyIn (lowerStr transport_mode) (lowerStr t))

/-- The level1 half of the transport condition, evaluated only on
records whose tags matched; `f.level1 = none` makes the Python
expression `.get("level1", "").lower()` call `lower()` on `None`. -/
def level1TransportMatch (f : Factor) : Bool :=
  match f.level1 with
  | some s => ["travel", "vehicle", "freight"].any (fun c => pyIn c (lowerStr s))
  | none => false

/-- The transport list comprehension of `quick_lookup`: left-to-right,
short-circuited conjunction; a tag-matching record with a null `level1`
raises (`AttributeError` on `None.lower()`), modelled as
`Except.error ()`. -/
def transportSearch (transport_mode : String) : List Factor → Except Unit (List Factor)
  | [] => Except.ok []
  | f :: rest =>
    if transportTagMatch transport_mode f then
      match f.level1 with
      | none => Except.error ()
      | some s =>
        if ["travel", "vehicle", "freight"].any (fun c => pyIn c (lowerStr s)) then
          (transportSearch transport_mode rest).map (fun l => f :: l)
        else transportSearch transport_mode rest
    else transportSearch transport_mode rest

/-- The deduplication loop of `quick_lookup` with its `seen_ids`
accumulator: keep a record only when its `id` has not been seen. -/
def dedupByIdGo (seen : List String) : List Factor → List Factor
  | [] => []
  | f :: rest =>
    if f.id ∈ seen then dedupByIdGo seen rest
    else f :: dedupByIdGo (f.id :: seen) rest

/-- Deduplication by `id`, starting from an empty `seen_ids`. -/
def dedupById (l : List Factor) : List Factor :=
  dedupByIdGo [] l

/-- The `/quick-lookup` endpoint: up to three sub-searches, each
truncated to 10, concatenated in the order electricity, fuel,
transport, then deduplicated by id and truncated to 20.  The string
criteria participate only when Python-truthy; the exception of the
transport comprehension propagates. -/
def quick_lookup (fuel_type : Option String) (electricity : Bool)
    (transport_mode : Option String) (factors : List Factor) :
    Except Unit (List Factor) :=
  let r1 := if electricity then (factors.filter elecPred).take 10 else []
  let r2 := match fuel_type with
    | some ft => if ft = "" then [] else (factors.filter (fuelPred ft)).take 10
    | none => []
  match transport_mode with
  | some tm =>
    if tm = "" then Except.ok ((dedupById (r1 ++ r2)).take 20)
    else
      match transportSearch tm factors with
      | Except.error e => Except.error e
      | Except.ok ts => Except.ok ((dedupById (r1 ++ r2 ++ ts.take 10)).take 20)
  | none => Except.ok ((dedupById (r1 ++ r2)).take 20)

deriving instance DecidableEq for Except

/-! ## Specification-side definitions

These definitions follow the wording of the specification (not the
code); the theorems below compare the code's definitions with them. -/

/-- Modelled from the spec, step 4 of the tag-derivation algorithm read
as a set: deduplicate the raw tag list, strip each token, drop tokens
of length ≤ 1. -/
def tagsSpecSet (f : Factor) : Finset String :=
  ((rawTagList f).toFinset.image trimStr).filter (fun t => 1 < t.length)

/-- A function is a valid model of Python's `list(set(...))` when its
result is duplicate-free and has exactly the elements of its argument;
Python does not fix the order (string hashing is randomized per
process). -/
def validDedup (dedup : List String → List String) : Prop :=
  ∀ l : List String, (dedup l).Nodup ∧ (dedup l).toFinset = l.toFinset

/-- A record with its tag list forgotten (every other field kept). -/
def factorShape (f : Factor) : Factor :=
  { f with tags := [] }

/-- One valid `list(set(...))` order: first occurrences. -/
def dedupA : List String → List String :=
  fun l => l.dedup

/-- Another valid `list(set(...))` order: first occurrences, reversed. -/
def dedupB : List String → List String :=
  fun l => l.dedup.reverse

/-- The electricity sub-search truncated to its first 10 matches, as
the spec words it. -/
def electricitySub (factors : List Factor) : List Factor :=
  (factors.filter elecPred).take 10

/-- The fuel sub-search truncated to its first 10 matches. -/
def fuelSub (fuel_type : String) (factors : List Factor) : List Factor :=
  (factors.filter (fuelPred fuel_type)).take 10

/-- The transport sub-search truncated to its first 10 matches (its
exception propagates). -/
def transportSub (transport_mode : String) (factors : List Factor) :
    Except Unit (List Factor) :=
  (transportSearch transport_mode factors).map (fun l => l.take 10)

/-- Deduplication by `id` keeping the first occurrence, worded as in
the spec: keep the head, drop every later record with the same id,
recurse. -/
def keepFirstById : List Factor → List Factor
  | [] => []
  | f :: rest => f :: keepFirstById (rest.filter (fun g => !(decide (g.id = f.id))))
termination_by l => l.length
decreasing_by
  simp only [List.length_cons]
  exact Nat.lt_succ_of_le (List.length_filter_le _ _)

/-- Modelled from the spec: the quick-lookup composite as §4.2 words
it — run the sub-searches, truncate each to its first 10 matches,
concatenate in the fixed order electricity, fuel, transport,
deduplicate by id keeping the first occurrence, truncate to 20. -/
def quickLookupSpec (fuel_type : Option String) (electricity : Bool)
    (transport_mode : Option String) (factors : List Factor) :
    Except Unit (List Factor) :=
  let e := if electricity then electricitySub factors else []
  let fu := match fuel_type with
    | some ft => if ft = "" then [] else fuelSub ft factors
    | none => []
  let tr : Except Unit (List Factor) := match transport_mode with
    | some tm => if tm = "" then Except.ok [] else transportSub tm factors
    | none => Except.ok []
  tr.map (fun t => (keepFirstById (e ++ fu ++ t)).take 20)

/-! ## Concrete fixtures -/

/-- The example input row of §8 of the spec. -/
def exampleRow : RawRow :=
  { ID := some "1.1", Scope := some "Scope 1", Level1 := some "Fuels",
    Level2 := none, Level3 := none, Level4 := none, Column_Text := none,
    UOM := some "litres", GHG_Unit := some "kg CO2e",
    Conversion_Factor_2025 := some (2.31 : ℚ) }

/-- The record the Extractor produces from `exampleRow`. -/
def exFactor : Factor :=
  { id := "1.1", scope := some "Scope 1", level1 := some "Fuels",
    level2 := none, level3 := none, level4 := none,
    activity_unit := some "litres", emission_unit := some "kg CO2e",
    conversion_factor := (2.31 : ℚ), column_text := none, year := 2025,
    tags := ["scope_1", "fuels", "litres"] }

/-- A row whose identifier cell holds only whitespace: not NaN, so it
survives the dropna/isna checks, but its stripped id is empty. -/
def rowWs : RawRow :=
  { ID := some " ", Scope := none, Level1 := none, Level2 := none,
    Level3 := none, Level4 := none, Column_Text := none, UOM := none,
    GHG_Unit := none, Conversion_Factor_2025 := some 1 }

/-- A row whose `Level1` cell holds only whitespace: its stripped
`level1` is the empty string, which is non-null but Python-falsy. -/
def rowBlankL1 : RawRow :=
  { ID := some "7", Scope := none, Level1 := some " ", Level2 := none,
    Level3 := none, Level4 := none, Column_Text := none, UOM := none,
    GHG_Unit := none, Conversion_Factor_2025 := some 1 }

/-- A family of records qualifying for the electricity sub-search,
with distinct ids. -/
def qlRec (i : Nat) : Factor :=
  { id := Nat.repr i, scope := some "Scope 2", level1 := none,
    level2 := none, level3 := none, level4 := none,
    activity_unit := none, emission_unit := none,
    conversion_factor := 1, column_text := none, year := 2025,
    tags := ["uk"] }

/-- Eleven distinct records all qualifying for the electricity
sub-search. -/
def ds11 : List Factor :=
  (List.range 11).map qlRec

/-- A record with tag `"uk"` and scope `"Scope 2"`. -/
def ukS2 : Factor :=
  { id := "uk-s2", scope := some "Scope 2", level1 := some "Energy",
    level2 := none, level3 := none, level4 := none,
    activity_unit := some "kWh", emission_unit := some "kg CO2e",
    conversion_factor := 1, column_text := none, year := 2025,
    tags := ["uk", "electricity"] }

/-- A record with tag `"uk"` but scope `"Scope 3"`. -/
def ukS3 : Factor :=
  { id := "uk-s3", scope := some "Scope 3", level1 := some "Energy",
    level2 := none, level3 := none, level4 := none,
    activity_unit := some "kWh", emission_unit := some "kg CO2e",
    conversion_factor := 1, column_text := none, year := 2025,
    tags := ["uk", "grid"] }

/-- A transport-like record whose `level1` is null although its tag
matches the mode `"car"`. -/
def carNullL1 : Factor :=
  { id := "car-0", scope := some "Scope 3", level1 := none,
    level2 := none, level3 := none, level4 := none,
    activity_unit := some "km", emission_unit := some "kg CO2e",
    conversion_factor := 1, column_text := none, year := 2025,
    tags := ["car"] }

/-- A well-formed transport record (tag `"car"`, `level1` set to a
travel category). -/
def carTravel : Factor :=
  { id := "car-1", scope := some "Scope 3", level1 := some "Business travel- land",
    level2 := none, level3 := none, level4 := none,
    activity_unit := some "km", emission_unit := some "kg CO2e",
    conversion_factor := 1, column_text := none, year := 2025,
    tags := ["car", "travel"] }

/-- A row a missing identifier or factor value (pandas NaN) yields no
record. -/
def rowNoId : RawRow :=
  { ID := none, Scope := some "Scope 1", Level1 := some "Fuels",
    Level2 := none, Level3 := none, Level4 := none, Column_Text := none,
    UOM := none, GHG_Unit := none, Conversion_Factor_2025 := some 1 }

/-! ## Helper lemmas -/

theorem create_recordD_some (dedup : List String → List String) (row : RawRow)
    (i : String) (cf : ℚ) (hI : row.ID = some i)
    (hC : row.Conversion_Factor_2025 = some cf) :
    _create_factor_recordD dedup row =
      some { baseRecord row i cf with tags := _generate_tagsD dedup (baseRecord row i cf) } := by
  unfold _create_factor_recordD
  rw [hI, hC]

theorem create_recordD_none (dedup : List String → List String) (row : RawRow)
    (h : row.ID = none ∨ row.Conversion_Factor_2025 = none) :
    _create_factor_recordD dedup row = none := by
  unfold _create_factor_recordD
  rcases hI : row.ID with _ | i <;> rcases hC : row.Conversion_Factor_2025 with _ | c <;>
    simp_all

/-- C1 helper: a surviving record's fields come from a row of the
input with both required cells present. -/
theorem mem_extractFactorsD (dedup : List String → List String)
    (rows : List RawRow) (f : Factor) (h : f ∈ extractFactorsD dedup rows) :
    ∃ r ∈ rows, _create_factor_recordD dedup r = some f := by
  unfold extractFactorsD at h
  exact List.mem_filterMap.mp h

/-- A search request with no criteria present. -/
def emptyRequest : SearchRequest :=
  { scope := none, category_level1 := none, category_level2 := none,
    category_level3 := none, activity_unit := none, emission_unit := none,
    search_term := none, min_factor := none, max_factor := none }

/-- A search request whose only criteria are `min_factor = x` and
`max_factor = x`. -/
def minMaxRequest (x : ℚ) : SearchRequest :=
  { scope := none, category_level1 := none, category_level2 := none,
    category_level3 := none, activity_unit := none, emission_unit := none,
    search_term := none, min_factor := some x, max_factor := some x }

/-- C6: applying the search operation with no criteria present returns
the full list unchanged, preserving the original order — the filter
chain is the identity when all criteria are absent. -/
theorem C6_no_criteria_identity (factors : List Factor) :
    search_factors factors emptyRequest = factors := rfl

/-- C7: searching with `min_factor = X` and `max_factor = X` and no
other criteria returns exactly the records whose `conversion_factor`
equals `X`; both numeric bounds are inclusive. -/
theorem C7_point_range (factors : List Factor) (x : ℚ) :
    search_factors factors (minMaxRequest x) =
      factors.filter (fun f => decide (f.conversion_factor = x)) := by
  show ((factors.filter (fun f => decide (x ≤ f.conversion_factor))).filter
      (fun f => decide (f.conversion_factor ≤ x))) = _
  rw [List.filter_filter]
  apply List.filter_congr
  intro f _
  rw [← Bool.decide_and, decide_eq_decide]
  constructor
  · intro h
    exact le_antisymm h.1 h.2
  · intro h
    exact ⟨le_of_eq h, le_of_eq h.symm⟩

/-- C1 (amended): every surviving record's `id` is the stripped source
identifier (hence non-null, though empty when the identifier cell was
whitespace-only) and its `conversion_factor` is the source numeric
value; every row whose identifier or conversion-factor cell is missing
is dropped entirely, never included with a placeholder. -/
theorem C1_survivor_fields :
    (∀ (rows : List RawRow) (f : Factor), f ∈ extractFactors rows →
       ∃ r ∈ rows, (∃ i, r.ID = some i ∧ f.id = trimStr i) ∧
         r.Conversion_Factor_2025 = some f.conversion_factor) ∧
    (∀ row : RawRow, row.ID = none ∨ row.Conversion_Factor_2025 = none →
       _create_factor_record row = none) := by
  constructor
  · intro rows f hf
    obtain ⟨r, hr, hcreate⟩ := mem_extractFactorsD List.dedup rows f hf
    refine ⟨r, hr, ?_⟩
    rcases hI : r.ID with _ | i
    · rw [create_recordD_none List.dedup r (Or.inl hI)] at hcreate
      cases hcreate
    · rcases hC : r.Conversion_Factor_2025 with _ | cf
      · rw [create_recordD_none List.dedup r (Or.inr hC)] at hcreate
        cases hcreate
      · rw [create_recordD_some List.dedup r i cf hI hC] at hcreate
        cases hcreate
        exact ⟨⟨i, rfl, rfl⟩, rfl⟩
  · intro row h
    exact create_recordD_none List.dedup row h

/-- C1 counterexample: a row whose identifier cell is the whitespace
string `" "` is not NaN, so it survives extraction, yet its stripped
`id` is the empty string — the claim's "non-empty `id`" fails. -/
theorem C1_empty_id_example :
    rowWs.ID = some " " ∧ (extractFactors [rowWs]).map Factor.id = [""] :=
  ⟨rfl, by decide⟩

/-- C1 witness. -/
theorem C1_survivor_fields_witness :
    (∃ r ∈ [exampleRow], (∃ i, r.ID = some i ∧ exFactor.id = trimStr i) ∧
       r.Conversion_Factor_2025 = some exFactor.conversion_factor) ∧
    _create_factor_record rowNoId = none := by
  refine ⟨C1_survivor_fields.1 [exampleRow] exFactor ?_,
    C1_survivor_fields.2 rowNoId (Or.inl rfl)⟩
  have h : extractFactors [exampleRow] = [exFactor] := rfl
  rw [h]
  exact List.mem_singleton.mpr rfl

/-- C9: lookup-by-id is an exact, first-match lookup returning zero or
one result: when some record has the requested id the first such record
is returned, and when none has it the endpoint returns the distinct 404
not-found condition (never an empty success, never a crash — the
operation is total). -/
theorem C9_lookup_by_id (factors : List Factor) (fid : String) :
    ((∀ f ∈ factors, f.id ≠ fid) →
       get_factor_by_id factors fid = Except.error 404) ∧
    (∀ f, get_factor_by_id factors fid = Except.ok f →
       f.id = fid ∧ ∃ pre post, factors = pre ++ f :: post ∧ ∀ g ∈ pre, g.id ≠ fid) ∧
    ((∃ f ∈ factors, f.id = fid) →
       ∃ f, get_factor_by_id factors fid = Except.ok f ∧ f.id = fid) := by
  refine ⟨?_, ?_, ?_⟩
  · intro h
    unfold get_factor_by_id
    have hnone : factors.find? (fun f => f.id == fid) = none := by
      rw [List.find?_eq_none]
      intro f hf
      simpa using h f hf
    rw [hnone]
  · intro f hf
    unfold get_factor_by_id at hf
    cases hfind : factors.find? (fun g => g.id == fid) with
    | none => rw [hfind] at hf; cases hf
    | some g =>
      rw [hfind] at hf
      cases hf
      obtain ⟨hp, pre, post, heq, hpre⟩ := List.find?_eq_some.mp hfind
      refine ⟨by simpa using hp, pre, post, heq, ?_⟩
      intro a ha
      simpa using hpre a ha
  · intro h
    have hsome : (factors.find? (fun f => f.id == fid)).isSome := by
      rw [List.find?_isSome]
      obtain ⟨f, hf, hid⟩ := h
      exact ⟨f, hf, by simpa using hid⟩
    cases hfind : factors.find? (fun f => f.id == fid) with
    | none => rw [hfind] at hsome; cases hsome
    | some g =>
      have hp := List.find?_some hfind
      refine ⟨g, ?_, by simpa using hp⟩
      unfold get_factor_by_id
      rw [hfind]

/-- C9 witness. -/
theorem C9_lookup_by_id_witness :
    get_factor_by_id [ukS2, ukS3] "absent-id" = Except.error 404 ∧
    (∃ f, get_factor_by_id [ukS2, ukS3] "uk-s3" = Except.ok f ∧ f.id = "uk-s3") :=
  ⟨(C9_lookup_by_id [ukS2, ukS3] "absent-id").1 (by decide),
   (C9_lookup_by_id [ukS2, ukS3] "uk-s3").2.2 ⟨ukS3, by decide, by decide⟩⟩

theorem pyTruthy_of_length {t : String} (h : 1 < t.length) : pyTruthy t = true := by
  cases t with
  | mk l =>
    cases l with
    | nil => simp [String.length] at h
    | cons a l2 => simp [pyTruthy]

/-- C2: for every record, the final tag list is, as a set, exactly the
claimed computation — the raw tags of steps 1–3 (scope with underscores,
split category levels skipping `"nan"`, unsplit activity unit, in that
order inside `rawTagList`), then deduplicated, stripped, with tokens of
length ≤ 1 dropped; the list is duplicate-free and all its tokens have
length > 1.  On the example row the record's tags contain `"scope_1"`,
`"fuels"` and `"litres"` and its `conversion_factor` equals `2.31`. -/
theorem C2_tag_derivation :
    (∀ f : Factor,
        (_generate_tags f).toFinset = tagsSpecSet f ∧
        (_generate_tags f).Nodup ∧
        (_generate_tags f).all (fun t => decide (1 < t.length)) = true) ∧
    (extractFactors [exampleRow] = [exFactor] ∧
     "scope_1" ∈ exFactor.tags ∧ "fuels" ∈ exFactor.tags ∧ "litres" ∈ exFactor.tags ∧
     exFactor.conversion_factor = (2.31 : ℚ) ∧ exFactor.tags.Nodup) := by
  constructor
  · intro f
    refine ⟨?_, List.nodup_dedup _, ?_⟩
    · ext t
      simp only [_generate_tags, _generate_tagsD, cleanedTagList, tagsSpecSet,
        List.mem_toFinset, List.mem_dedup, List.mem_filter, List.mem_map,
        Finset.mem_filter, Finset.mem_image, Bool.and_eq_true, decide_eq_true_eq]
      constructor
      · rintro ⟨⟨s, hs, hst⟩, _, hlen⟩
        exact ⟨⟨s, hs, hst⟩, hlen⟩
      · rintro ⟨⟨s, hs, hst⟩, hlen⟩
        exact ⟨⟨s, hs, hst⟩, pyTruthy_of_length hlen, hlen⟩
    · rw [List.all_eq_true]
      intro t ht
      have hp := List.of_mem_filter (List.mem_dedup.mp ht)
      simp only [Bool.and_eq_true] at hp
      exact hp.2
  · exact ⟨rfl, by decide, by decide, by decide, rfl, by decide⟩

theorem dedupA_valid : validDedup dedupA := by
  intro l
  refine ⟨List.nodup_dedup l, ?_⟩
  ext a
  simp [dedupA, List.mem_toFinset, List.mem_dedup]

theorem dedupB_valid : validDedup dedupB := by
  intro l
  refine ⟨?_, ?_⟩
  · simpa [dedupB] using (List.nodup_reverse).mpr (List.nodup_dedup l)
  · ext a
    simp [dedupB, List.mem_toFinset, List.mem_reverse, List.mem_dedup]

theorem extractFactorsD_cons_none (d : List String → List String) (r : RawRow)
    (rest : List RawRow) (h : _create_factor_recordD d r = none) :
    extractFactorsD d (r :: rest) = extractFactorsD d rest := by
  unfold extractFactorsD
  rw [List.filterMap_cons, h]

theorem extractFactorsD_cons_some (d : List String → List String) (r : RawRow)
    (rest : List RawRow) (f : Factor) (h : _create_factor_recordD d r = some f) :
    extractFactorsD d (r :: rest) = f :: extractFactorsD d rest := by
  unfold extractFactorsD
  rw [List.filterMap_cons, h]

/-- C3 (amended): extraction is a deterministic function of the input
up to the order of each record's tags list.  For any two valid
realizations of Python's `list(set(...))` (whose iteration order the
language does not fix), the extracted record sequences agree on every
field, and each record's tag *set* agrees; only the tag list order may
differ. -/
theorem C3_deterministic_up_to_tag_order :
    ∀ d1 d2 : List String → List String, validDedup d1 → validDedup d2 →
    ∀ rows : List RawRow,
      (extractFactorsD d1 rows).map factorShape =
        (extractFactorsD d2 rows).map factorShape ∧
      (extractFactorsD d1 rows).map (fun f => f.tags.toFinset) =
        (extractFactorsD d2 rows).map (fun f => f.tags.toFinset) := by
  intro d1 d2 h1 h2 rows
  induction rows with
  | nil => exact ⟨rfl, rfl⟩
  | cons r rest ih =>
    rcases hI : r.ID with _ | i
    · rw [extractFactorsD_cons_none d1 r rest (create_recordD_none d1 r (Or.inl hI)),
          extractFactorsD_cons_none d2 r rest (create_recordD_none d2 r (Or.inl hI))]
      exact ih
    · rcases hC : r.Conversion_Factor_2025 with _ | cf
      · rw [extractFactorsD_cons_none d1 r rest (create_recordD_none d1 r (Or.inr hC)),
            extractFactorsD_cons_none d2 r rest (create_recordD_none d2 r (Or.inr hC))]
        exact ih
      · rw [extractFactorsD_cons_some d1 r rest _ (create_recordD_some d1 r i cf hI hC),
            extractFactorsD_cons_some d2 r rest _ (create_recordD_some d2 r i cf hI hC)]
        constructor
        · simp only [List.map_cons]
          rw [ih.1]
          rfl
        · simp only [List.map_cons]
          rw [ih.2]
          congr 1
          show (_generate_tagsD d1 (baseRecord r i cf)).toFinset =
            (_generate_tagsD d2 (baseRecord r i cf)).toFinset
          unfold _generate_tagsD
          rw [(h1 (cleanedTagList (baseRecord r i cf))).2,
              (h2 (cleanedTagList (baseRecord r i cf))).2]

/-- C3 counterexample: two valid `list(set(...))` orders (first
occurrences, and first occurrences reversed) both satisfy everything
Python guarantees, yet produce different `conversion_factors` content
on the same input — the tag lists differ in order — so the content is
not a deterministic function of the input alone. -/
theorem C3_tag_order_counterexample :
    validDedup dedupA ∧ validDedup dedupB ∧
    extractFactorsD dedupA [exampleRow] ≠ extractFactorsD dedupB [exampleRow] := by
  refine ⟨dedupA_valid, dedupB_valid, ?_⟩
  intro h
  have h2 := congrArg (fun l => l.map Factor.tags) h
  have e1 : (extractFactorsD dedupA [exampleRow]).map Factor.tags =
      [["scope_1", "fuels", "litres"]] := rfl
  have e2 : (extractFactorsD dedupB [exampleRow]).map Factor.tags =
      [["litres", "fuels", "scope_1"]] := rfl
  simp only at h2
  rw [e1, e2] at h2
  exact absurd h2 (by decide)

/-- C3 witness. -/
theorem C3_deterministic_witness :
    (extractFactorsD dedupA [exampleRow]).map factorShape =
      (extractFactorsD dedupB [exampleRow]).map factorShape ∧
    (extractFactorsD dedupA [exampleRow]).map (fun f => f.tags.toFinset) =
      (extractFactorsD dedupB [exampleRow]).map (fun f => f.tags.toFinset) :=
  C3_deterministic_up_to_tag_order dedupA dedupB dedupA_valid dedupB_valid [exampleRow]

theorem dedupByIdGo_of_nodup :
    ∀ (l : List Factor) (seen : List String),
      (∀ f ∈ l, f.id ∉ seen) → (l.map Factor.id).Nodup →
      dedupByIdGo seen l = l := by
  intro l
  induction l with
  | nil => intro seen _ _; rfl
  | cons f rest ih =>
    intro seen hseen hnodup
    show (if f.id ∈ seen then dedupByIdGo seen rest
          else f :: dedupByIdGo (f.id :: seen) rest) = f :: rest
    rw [if_neg (hseen f (List.mem_cons_self f rest))]
    rw [List.map_cons, List.nodup_cons] at hnodup
    congr 1
    apply ih
    · intro g hg hmem
      rcases List.mem_cons.mp hmem with h | h
      · exact hnodup.1 (h ▸ List.mem_map_of_mem Factor.id hg)
      · exact hseen g (List.mem_cons_of_mem f hg) h
    · exact hnodup.2

/-- C4 (amended): with only the electricity flag set, the quick-lookup
result consists exactly of qualifying records (tag set meets
{"electricity","uk","grid"} and scope in {"Scope 1","Scope 2"}), and —
when record ids are distinct — it includes every qualifying record
among the first 10 qualifying records of the dataset (the sub-search is
truncated to 10 before the final truncation to 20); in particular, on a
dataset of a tag-"uk" Scope 2 record and a tag-"uk" Scope 3 record,
exactly the Scope 2 record is returned. -/
theorem C4_electricity_flag :
    (∀ ds : List Factor, (ds.map Factor.id).Nodup →
       ∃ res, quick_lookup none true none ds = Except.ok res ∧
         (∀ f ∈ (ds.filter elecPred).take 10, f ∈ res) ∧
         (∀ f ∈ res, elecPred f = true)) ∧
    quick_lookup none true none [ukS2, ukS3] = Except.ok [ukS2] := by
  constructor
  · intro ds hnodup
    refine ⟨(ds.filter elecPred).take 10, ?_, fun f hf => hf, ?_⟩
    · show Except.ok ((dedupById ((ds.filter elecPred).take 10 ++ [])).take 20) = _
      rw [List.append_nil]
      have hsub : ((ds.filter elecPred).take 10).Sublist ds :=
        (List.take_sublist 10 (ds.filter elecPred)).trans (List.filter_sublist ds)
      have hnd : (((ds.filter elecPred).take 10).map Factor.id).Nodup :=
        List.Nodup.sublist (hsub.map Factor.id) hnodup
      rw [dedupById, dedupByIdGo_of_nodup _ [] (by intro f _ h; cases h) hnd]
      have hlen : ((ds.filter elecPred).take 10).length ≤ 20 := by
        rw [List.length_take]
        exact le_trans (min_le_left _ _) (by norm_num)
      rw [List.take_of_length_le hlen]
    · intro f hf
      exact List.of_mem_filter ((List.take_sublist 10 _).subset hf)
  · decide

/-- C4 counterexample: on a dataset of 11 qualifying records with
distinct ids, the record `qlRec 10` qualifies (tag `"uk"`, scope
`"Scope 2"`) but is absent from the quick-lookup result, because the
electricity sub-search keeps only its first 10 matches — so the result
does not include *every* qualifying record. -/
theorem C4_truncation_counterexample :
    elecPred (qlRec 10) = true ∧ qlRec 10 ∈ ds11 ∧
    quick_lookup none true none ds11 = Except.ok ((List.range 10).map qlRec) ∧
    qlRec 10 ∉ (List.range 10).map qlRec := by
  exact ⟨by decide, by decide, by decide, by decide⟩

/-- C4 witness. -/
theorem C4_electricity_flag_witness :
    ∃ res, quick_lookup none true none [ukS2, ukS3] = Except.ok res ∧
      (∀ f ∈ ([ukS2, ukS3].filter elecPred).take 10, f ∈ res) ∧
      (∀ f ∈ res, elecPred f = true) :=
  C4_electricity_flag.1 [ukS2, ukS3] (by decide)

theorem notMem_cons_decide (x a : String) (seen : List String) :
    decide (x ∉ a :: seen) = (!(decide (x = a)) && decide (x ∉ seen)) := by
  simp [List.mem_cons, not_or, Bool.decide_and, decide_not]

theorem dedupByIdGo_eq_keepFirst :
    ∀ (l : List Factor) (seen : List String),
      dedupByIdGo seen l = keepFirstById (l.filter (fun g => decide (g.id ∉ seen))) := by
  intro l
  induction l with
  | nil => intro seen; simp [dedupByIdGo, keepFirstById]
  | cons f rest ih =>
    intro seen
    show (if f.id ∈ seen then dedupByIdGo seen rest
          else f :: dedupByIdGo (f.id :: seen) rest) = _
    rw [List.filter_cons]
    by_cases h : f.id ∈ seen
    · rw [if_pos h]
      have hd : decide (f.id ∉ seen) = false := by simp [h]
      rw [hd]
      simp only [Bool.false_eq_true, if_false]
      exact ih seen
    · rw [if_neg h]
      have hd : decide (f.id ∉ seen) = true := by simp [h]
      rw [hd]
      simp only [if_true]
      rw [keepFirstById]
      congr 1
      rw [ih (f.id :: seen), List.filter_filter]
      have hfun : (fun g : Factor => decide (g.id ∉ f.id :: seen)) =
          (fun a : Factor => !(decide (a.id = f.id)) && decide (a.id ∉ seen)) := by
        funext g
        rw [notMem_cons_decide]
      rw [hfun]

theorem dedupById_eq_keepFirstById (l : List Factor) :
    dedupById l = keepFirstById l := by
  rw [dedupById, dedupByIdGo_eq_keepFirst l []]
  congr 1
  have hp : (fun g : Factor => decide (g.id ∉ ([] : List String))) = fun _ => true := by
    funext g
    simp
  rw [hp, List.filter_true]

/-- C5: for every dataset and every combination of requested criteria,
the quick-lookup composite equals the spec's pipeline: run the
electricity, fuel and transport sub-searches, truncate each to its
first 10 matches, concatenate in that fixed order, deduplicate by `id`
keeping the first occurrence, and truncate the combined list to at most
20 records (a transport-sub-search exception propagates identically on
both sides). -/
theorem C5_quick_lookup_pipeline (fuel_type : Option String) (electricity : Bool)
    (transport_mode : Option String) (factors : List Factor) :
    quick_lookup fuel_type electricity transport_mode factors =
      quickLookupSpec fuel_type electricity transport_mode factors := by
  cases transport_mode with
  | none =>
    simp [quick_lookup, quickLookupSpec, electricitySub, fuelSub, transportSub,
      Except.map, dedupById_eq_keepFirstById]
  | some tm =>
    by_cases htm : tm = ""
    · subst htm
      simp [quick_lookup, quickLookupSpec, electricitySub, fuelSub, transportSub,
        Except.map, dedupById_eq_keepFirstById]
    · simp only [quick_lookup, quickLookupSpec, electricitySub, fuelSub, transportSub]
      rw [if_neg htm, if_neg htm]
      cases hts : transportSearch tm factors with
      | error e => simp [Except.map]
      | ok ts => simp [Except.map, dedupById_eq_keepFirstById]

/-- C10: the transport sub-search of quick-lookup is total exactly when
every record whose tags substring-match the requested mode has a
non-null `level1`: under that precondition it returns the matching
records as a filter; if some tag-matching record has a null `level1`,
the operation raises (`lower()` on `None`) instead of excluding that
record, and quick-lookup with a non-empty transport mode fails exactly
when the transport sub-search does. -/
theorem C10_transport_null_level1 (tm : String) (factors : List Factor) :
    ((∀ f ∈ factors, transportTagMatch tm f = true → f.level1 ≠ none) →
       transportSearch tm factors =
         Except.ok (factors.filter (fun f => transportTagMatch tm f && level1TransportMatch f))) ∧
    ((∃ f ∈ factors, transportTagMatch tm f = true ∧ f.level1 = none) →
       transportSearch tm factors = Except.error ()) ∧
    (tm ≠ "" → ∀ (ft : Option String) (el : Bool),
       (quick_lookup ft el (some tm) factors = Except.error () ↔
        transportSearch tm factors = Except.error ())) := by
  refine ⟨?_, ?_, ?_⟩
  · induction factors with
    | nil => intro _; rfl
    | cons f rest ih =>
      intro h
      by_cases hm : transportTagMatch tm f = true
      · rcases hl : f.level1 with _ | s
        · exact absurd hl (h f (List.mem_cons_self f rest) hm)
        · have hrest := ih (fun g hg => h g (List.mem_cons_of_mem f hg))
          show (if transportTagMatch tm f = true then
                  match f.level1 with
                  | none => Except.error ()
                  | some s =>
                    if (["travel", "vehicle", "freight"].any (fun c => pyIn c (lowerStr s))) = true
                    then (transportSearch tm rest).map (fun l => f :: l)
                    else transportSearch tm rest
                else transportSearch tm rest) = _
          rw [if_pos hm, hl]
          show (if (["travel", "vehicle", "freight"].any (fun c => pyIn c (lowerStr s))) = true
                then (transportSearch tm rest).map (fun l => f :: l)
                else transportSearch tm rest) = _
          by_cases hc : (["travel", "vehicle", "freight"].any (fun c => pyIn c (lowerStr s))) = true
          · rw [if_pos hc, hrest]
            have hc2 : pyIn "travel" (lowerStr s) = true ∨ pyIn "vehicle" (lowerStr s) = true ∨
                pyIn "freight" (lowerStr s) = true := by
              simpa using hc
            simp [Except.map, List.filter_cons, hm, level1TransportMatch, hl, hc2]
          · rw [if_neg hc, hrest]
            have hc2 : ¬(pyIn "travel" (lowerStr s) = true ∨ pyIn "vehicle" (lowerStr s) = true ∨
                pyIn "freight" (lowerStr s) = true) := by
              simpa using hc
            simp [List.filter_cons, hm, level1TransportMatch, hl, hc2]
      · have hrest := ih (fun g hg => h g (List.mem_cons_of_mem f hg))
        show (if transportTagMatch tm f = true then
                match f.level1 with
                | none => Except.error ()
                | some s =>
                  if (["travel", "vehicle", "freight"].any (fun c => pyIn c (lowerStr s))) = true
                  then (transportSearch tm rest).map (fun l => f :: l)
                  else transportSearch tm rest
              else transportSearch tm rest) = _
        rw [if_neg hm, hrest]
        have hmf : transportTagMatch tm f = false := by
          cases hb : transportTagMatch tm f
          · rfl
          · exact absurd hb hm
        simp [List.filter_cons, hmf]
  · induction factors with
    | nil =>
      rintro ⟨f, hf, -, -⟩
      exact absurd hf (List.not_mem_nil f)
    | cons f rest ih =>
      rintro ⟨g, hg, hgm, hgl⟩
      show (if transportTagMatch tm f = true then
              match f.level1 with
              | none => Except.error ()
              | some s =>
                if (["travel", "vehicle", "freight"].any (fun c => pyIn c (lowerStr s))) = true
                then (transportSearch tm rest).map (fun l => f :: l)
                else transportSearch tm rest
            else transportSearch tm rest) = Except.error ()
      rcases List.mem_cons.mp hg with rfl | hg2
      · rw [if_pos hgm, hgl]
      · have herr := ih ⟨g, hg2, hgm, hgl⟩
        by_cases hm : transportTagMatch tm f = true
        · rw [if_pos hm]
          rcases hl : f.level1 with _ | s
          · rfl
          · show (if (["travel", "vehicle", "freight"].any (fun c => pyIn c (lowerStr s))) = true
                  then (transportSearch tm rest).map (fun l => f :: l)
                  else transportSearch tm rest) = Except.error ()
            by_cases hc : (["travel", "vehicle", "freight"].any (fun c => pyIn c (lowerStr s))) = true
            · rw [if_pos hc, herr]
              rfl
            · rw [if_neg hc, herr]
        · rw [if_neg hm, herr]
  · intro htm ft el
    simp only [quick_lookup]
    rw [if_neg htm]
    cases hts : transportSearch tm factors with
    | error e =>
      cases e
      simp
    | ok ts =>
      constructor
      · intro h
        cases h
      · intro h
        cases h

/-- C10 witness. -/
theorem C10_transport_null_level1_witness :
    transportSearch "car" [carTravel] =
      Except.ok ([carTravel].filter (fun f => transportTagMatch "car" f && level1TransportMatch f)) ∧
    transportSearch "car" [carNullL1] = Except.error () ∧
    (quick_lookup none false (some "car") [carNullL1] = Except.error () ↔
     transportSearch "car" [carNullL1] = Except.error ()) :=
  ⟨(C10_transport_null_level1 "car" [carTravel]).1 (by decide),
   (C10_transport_null_level1 "car" [carNullL1]).2.1 ⟨carNullL1, by decide, by decide, rfl⟩,
   (C10_transport_null_level1 "car" [carNullL1]).2.2 (by decide) none false⟩

/-! ## Metadata aggregation lemmas (for C8) -/

/-- The key column of a counter association list. -/
def keysOf (l : List (String × Nat)) : List String :=
  l.map Prod.fst

/-- Count held by a counter association list for a key (0 if absent). -/
def lookupCount : List (String × Nat) → String → Nat
  | [], _ => 0
  | (a, n) :: rest, k => if a = k then n else lookupCount rest k

/-- Python truthiness of an optional key value. -/
def keyTruthy (key : Factor → Option String) (f : Factor) : Bool :=
  match key f with
  | some s => decide (s ≠ "")
  | none => false

theorem lookupCount_bumpCount (l : List (String × Nat)) (k v : String) :
    lookupCount (bumpCount l k) v =
      if v = k then lookupCount l k + 1 else lookupCount l v := by
  induction l with
  | nil =>
    by_cases h : v = k
    · subst h
      simp [bumpCount, lookupCount]
    · have h2 : ¬(k = v) := fun hh => h hh.symm
      simp [bumpCount, lookupCount, h, h2]
  | cons p rest ih =>
    obtain ⟨a, n⟩ := p
    by_cases hak : a = k
    · subst hak
      by_cases hv : v = a
      · subst hv
        simp [bumpCount, lookupCount]
      · have h2 : ¬(a = v) := fun hh => hv hh.symm
        simp [bumpCount, lookupCount, h2, hv]
    · by_cases hv : a = v
      · subst hv
        have hvk : ¬(a = k) := hak
        simp [bumpCount, lookupCount, hak, hvk]
      · simp [bumpCount, lookupCount, hak, hv, ih]

theorem mem_keys_bumpCount (l : List (String × Nat)) (k v : String) :
    v ∈ keysOf (bumpCount l k) ↔ v ∈ keysOf l ∨ v = k := by
  induction l with
  | nil => simp [bumpCount, keysOf, eq_comm]
  | cons p rest ih =>
    obtain ⟨a, n⟩ := p
    by_cases hak : a = k
    · subst hak
      simp [bumpCount, keysOf]
      tauto
    · simp only [bumpCount, if_neg hak, keysOf, List.map_cons, List.mem_cons]
      rw [show (List.map Prod.fst (bumpCount rest k)) = keysOf (bumpCount rest k) from rfl,
        ih]
      rw [show (List.map Prod.fst rest) = keysOf rest from rfl]
      tauto

theorem keys_nodup_bumpCount (l : List (String × Nat)) (k : String)
    (h : (keysOf l).Nodup) : (keysOf (bumpCount l k)).Nodup := by
  induction l with
  | nil => simp [bumpCount, keysOf]
  | cons p rest ih =>
    obtain ⟨a, n⟩ := p
    rw [keysOf, List.map_cons, List.nodup_cons] at h
    by_cases hak : a = k
    · subst hak
      simpa [bumpCount, keysOf, List.nodup_cons] using h
    · simp only [bumpCount, if_neg hak, keysOf, List.map_cons, List.nodup_cons]
      refine ⟨?_, ih h.2⟩
      rw [show (List.map Prod.fst (bumpCount rest k)) = keysOf (bumpCount rest k) from rfl,
        mem_keys_bumpCount]
      rintro (ha | ha)
      · exact h.1 ha
      · exact hak ha

theorem mem_iff_lookup (l : List (String × Nat)) (h : (keysOf l).Nodup)
    (v : String) (n : Nat) :
    (v, n) ∈ l ↔ (v ∈ keysOf l ∧ lookupCount l v = n) := by
  induction l with
  | nil => simp [keysOf, lookupCount]
  | cons p rest ih =>
    obtain ⟨a, m⟩ := p
    rw [keysOf, List.map_cons, List.nodup_cons] at h
    constructor
    · intro hmem
      rcases List.mem_cons.mp hmem with heq | hmem2
      · cases heq
        exact ⟨List.mem_cons_self _ _, by simp [lookupCount]⟩
      · have hv : v ∈ keysOf rest := List.mem_map_of_mem Prod.fst hmem2
        have hva : ¬(a = v) := fun hh => h.1 (hh ▸ hv)
        refine ⟨List.mem_cons_of_mem _ hv, ?_⟩
        rw [lookupCount, if_neg hva]
        exact ((ih h.2).mp hmem2).2
    · rintro ⟨hkey, hlook⟩
      rcases List.mem_cons.mp hkey with heq | hv
      · subst heq
        rw [lookupCount, if_pos rfl] at hlook
        subst hlook
        exact List.mem_cons_self _ _
      · have hva : ¬(a = v) := fun hh => h.1 (hh ▸ hv)
        rw [lookupCount, if_neg hva] at hlook
        exact List.mem_cons_of_mem _ ((ih h.2).mpr ⟨hv, hlook⟩)

theorem sum_bumpCount (l : List (String × Nat)) (k : String) :
    ((bumpCount l k).map Prod.snd).sum = ((l.map Prod.snd).sum) + 1 := by
  induction l with
  | nil => simp [bumpCount]
  | cons p rest ih =>
    obtain ⟨a, n⟩ := p
    by_cases hak : a = k
    · subst hak
      simp [bumpCount]
      omega
    · simp [bumpCount, hak, ih]
      omega

theorem tally_foldl_lookup (key : Factor → Option String) :
    ∀ (facs : List Factor) (acc : List (String × Nat)) (v : String), v ≠ "" →
      lookupCount (facs.foldl (tallyStep key) acc) v =
        lookupCount acc v + facs.countP (fun f => key f == some v) := by
  intro facs
  induction facs with
  | nil =>
    intro acc v _
    simp [List.countP_nil]
  | cons f rest ih =>
    intro acc v hv
    rw [List.foldl_cons, ih (tallyStep key acc f) v hv, List.countP_cons]
    rcases hk : key f with _ | s
    · simp [tallyStep, hk]
    · by_cases hs : s = ""
      · subst hs
        have hvne : ¬("" = v) := fun hh => hv hh.symm
        simp [tallyStep, hk, hvne]
      · by_cases hsv : v = s
        · subst hsv
          have heq : ((key f == some v) : Bool) = true := by
            rw [hk]
            simp
          simp [tallyStep, hk, hs, lookupCount_bumpCount, heq]
          omega
        · have hne : ((key f == some v) : Bool) = false := by
            rw [hk]
            simp
            exact fun hh => hsv hh.symm
          simp [tallyStep, hk, hs, lookupCount_bumpCount, hsv, hne]
          exact fun hh => hsv hh.symm

theorem tally_foldl_mem_keys (key : Factor → Option String) :
    ∀ (facs : List Factor) (acc : List (String × Nat)) (v : String),
      v ∈ keysOf (facs.foldl (tallyStep key) acc) ↔
        v ∈ keysOf acc ∨ ∃ f ∈ facs, key f = some v ∧ v ≠ "" := by
  intro facs
  induction facs with
  | nil =>
    intro acc v
    simp
  | cons f rest ih =>
    intro acc v
    rw [List.foldl_cons, ih (tallyStep key acc f) v]
    rcases hk : key f with _ | s
    · simp only [tallyStep, hk, List.mem_cons]
      constructor
      · rintro (h | ⟨g, hg, hgv, hv⟩)
        · exact Or.inl h
        · exact Or.inr ⟨g, Or.inr hg, hgv, hv⟩
      · rintro (h | ⟨g, (rfl | hg), hgv, hv⟩)
        · exact Or.inl h
        · rw [hk] at hgv
          cases hgv
        · exact Or.inr ⟨g, hg, hgv, hv⟩
    · by_cases hs : s = ""
      · subst hs
        simp only [tallyStep, hk, if_pos rfl, List.mem_cons]
        constructor
        · rintro (h | ⟨g, hg, hgv, hv⟩)
          · exact Or.inl h
          · exact Or.inr ⟨g, Or.inr hg, hgv, hv⟩
        · rintro (h | ⟨g, (rfl | hg), hgv, hv⟩)
          · exact Or.inl h
          · rw [hk] at hgv
            cases hgv
            exact absurd rfl hv
          · exact Or.inr ⟨g, hg, hgv, hv⟩
      · simp only [tallyStep, hk, if_neg hs, mem_keys_bumpCount, List.mem_cons]
        constructor
        · rintro ((h | rfl) | ⟨g, hg, hgv, hv⟩)
          · exact Or.inl h
          · exact Or.inr ⟨f, Or.inl rfl, hk, hs⟩
          · exact Or.inr ⟨g, Or.inr hg, hgv, hv⟩
        · rintro (h | ⟨g, (rfl | hg), hgv, hv⟩)
          · exact Or.inl (Or.inl h)
          · rw [hk] at hgv
            cases hgv
            exact Or.inl (Or.inr rfl)
          · exact Or.inr ⟨g, hg, hgv, hv⟩

theorem tally_foldl_keys_nodup (key : Factor → Option String) :
    ∀ (facs : List Factor) (acc : List (String × Nat)),
      (keysOf acc).Nodup → (keysOf (facs.foldl (tallyStep key) acc)).Nodup := by
  intro facs
  induction facs with
  | nil =>
    intro acc h
    simpa using h
  | cons f rest ih =>
    intro acc h
    rw [List.foldl_cons]
    apply ih
    rcases hk : key f with _ | s
    · simpa [tallyStep, hk] using h
    · by_cases hs : s = ""
      · simpa [tallyStep, hk, hs] using h
      · simpa [tallyStep, hk, hs] using keys_nodup_bumpCount acc s h

theorem tally_foldl_sum (key : Factor → Option String) :
    ∀ (facs : List Factor) (acc : List (String × Nat)),
      ((facs.foldl (tallyStep key) acc).map Prod.snd).sum =
        ((acc.map Prod.snd).sum) + facs.countP (keyTruthy key) := by
  intro facs
  induction facs with
  | nil =>
    intro acc
    simp
  | cons f rest ih =>
    intro acc
    rw [List.foldl_cons, ih (tallyStep key acc f), List.countP_cons]
    rcases hk : key f with _ | s
    · simp [tallyStep, hk, keyTruthy]
    · by_cases hs : s = ""
      · subst hs
        simp [tallyStep, hk, keyTruthy]
      · simp [tallyStep, hk, hs, keyTruthy, sum_bumpCount]
        omega

/-- Characterization of the counter mapping built by
`_calculate_metadata`: the pair `(v, n)` appears exactly when `v` is a
non-empty key value and `n` is its positive occurrence count. -/
theorem tallyBy_mem (key : Factor → Option String) (facs : List Factor)
    (v : String) (n : Nat) :
    (v, n) ∈ tallyBy key facs ↔
      (v ≠ "" ∧ facs.countP (fun f => key f == some v) = n ∧ 0 < n) := by
  have hnd : (keysOf (facs.foldl (tallyStep key) [])).Nodup :=
    tally_foldl_keys_nodup key facs [] (by simp [keysOf])
  rw [tallyBy, mem_iff_lookup _ hnd, tally_foldl_mem_keys]
  constructor
  · rintro ⟨(h | ⟨f, hf, hfv, hv⟩), hlook⟩
    · simp [keysOf] at h
    · have hcount := tally_foldl_lookup key facs [] v hv
      rw [hlook] at hcount
      have hc2 : n = facs.countP (fun f => key f == some v) := by
        simpa [lookupCount] using hcount
      have hpos : 0 < facs.countP (fun f => key f == some v) :=
        List.countP_pos_iff.mpr ⟨f, hf, by simp [hfv]⟩
      exact ⟨hv, hc2.symm, by omega⟩
  · rintro ⟨hv, hcount, hpos⟩
    have hpos2 : 0 < facs.countP (fun f => key f == some v) := by
      rw [hcount]
      exact hpos
    obtain ⟨f, hf, hp⟩ := List.countP_pos_iff.mp hpos2
    have hfv : key f = some v := by simpa using hp
    refine ⟨Or.inr ⟨f, hf, hfv, hv⟩, ?_⟩
    have hcount2 := tally_foldl_lookup key facs [] v hv
    rw [hcount2]
    simpa [lookupCount] using hcount

/-- C8 (amended): after extraction, `categories` maps each populated
(non-null *and* non-empty) `level1` value to its positive occurrence
count, is sorted in descending order by count, and the sum of its
values is at most `total_factors` (the number of extracted records);
`scopes` likewise maps each populated scope value to its occurrence
count. -/
theorem C8_metadata (facs : List Factor) :
    List.Pairwise (fun a b : String × Nat => b.2 ≤ a.2) (categoriesMeta facs) ∧
    ((categoriesMeta facs).map Prod.snd).sum ≤ facs.length ∧
    (∀ v n, ((v, n) ∈ categoriesMeta facs) ↔
       (v ≠ "" ∧ facs.countP (fun f => f.level1 == some v) = n ∧ 0 < n)) ∧
    (∀ v n, ((v, n) ∈ scopesMeta facs) ↔
       (v ≠ "" ∧ facs.countP (fun f => f.scope == some v) = n ∧ 0 < n)) := by
  have hperm := List.mergeSort_perm (tallyBy Factor.level1 facs)
    (fun a b : String × Nat => decide (b.2 ≤ a.2))
  refine ⟨?_, ?_, ?_, ?_⟩
  · have htrans : ∀ a b c : String × Nat, decide (b.2 ≤ a.2) = true →
        decide (c.2 ≤ b.2) = true → decide (c.2 ≤ a.2) = true := by
      intro a b c h1 h2
      exact decide_eq_true (Nat.le_trans (of_decide_eq_true h2) (of_decide_eq_true h1))
    have htotal : ∀ a b : String × Nat,
        (decide (b.2 ≤ a.2) || decide (a.2 ≤ b.2)) = true := by
      intro a b
      rcases Nat.le_total b.2 a.2 with h | h
      · simp [h]
      · simp [h]
    have hp := @List.sorted_mergeSort (String × Nat)
      (fun a b : String × Nat => decide (b.2 ≤ a.2)) htrans htotal
      (tallyBy Factor.level1 facs)
    rw [categoriesMeta]
    exact hp.imp (fun h => of_decide_eq_true h)
  · have hsum := (hperm.map Prod.snd).sum_eq
    have htally : ((tallyBy Factor.level1 facs).map Prod.snd).sum =
        facs.countP (keyTruthy Factor.level1) := by
      rw [tallyBy, tally_foldl_sum]
      simp
    rw [categoriesMeta, hsum, htally]
    exact List.countP_le_length _
  · intro v n
    rw [categoriesMeta, (List.mergeSort_perm _ _).mem_iff, tallyBy_mem]
  · intro v n
    exact tallyBy_mem Factor.scope facs v n

/-- C8 counterexample: a record whose `level1` is the *empty* string
(from a whitespace-only source cell) is non-null, yet `categories` does
not map it at all — Python's truthiness check `if level1:` skips empty
strings, so "maps each non-null level1 value" fails. -/
theorem C8_empty_level1_example :
    (extractFactors [rowBlankL1]).map Factor.level1 = [some ""] ∧
    categoriesMeta (extractFactors [rowBlankL1]) = [] := by
  refine ⟨by decide, ?_⟩
  rw [categoriesMeta]
  have h : tallyBy Factor.level1 (extractFactors [rowBlankL1]) = [] := by decide
  rw [h]
  exact List.mergeSort_nil
